import Mathlib

/-
Verification development for the File-Conversion-Tool repository
(src/client.py, src/server.py): a shallow embedding, in Lean 4, of the
wire-protocol and path/option/parsing logic of the client and server,
together with theorems settling the frozen specification claims.

Strings on the wire are modelled as Lean String or List Char values
(each Python bytes object that the code immediately decodes is modelled
by its decoded text).  Python int values are modelled as Lean Int,
sizes as Nat.  All definitions are executable and structural, so
concrete instances evaluate by decide or rfl.
-/

namespace FileConv

/-! ### Character-list primitives

Helpers mirroring the Python string operations used by the code:
str.strip (default whitespace), str.lower (ASCII, which is all the
code relies on), substring membership (the in operator), str.split,
str.endswith, and os.path.basename (which on the server host splits on
both the slash and the backslash separator). -/

/-- The characters removed by Python str.strip() with no argument:
space, tab, newline, carriage return, vertical tab, form feed. -/
def isSpaceChar (c : Char) : Bool :=
  c == ' ' || c == '\t' || c == '\n' || c == '\r' ||
  c == Char.ofNat 11 || c == Char.ofNat 12

/-- Remove trailing whitespace (the right half of str.strip()). -/
def dropTrailing (l : List Char) : List Char :=
  (l.reverse.dropWhile isSpaceChar).reverse

/-- Python str.strip() with no argument. -/
def stripChars (l : List Char) : List Char :=
  dropTrailing (l.dropWhile isSpaceChar)

/-- ASCII lower-casing of one character, as Python str.lower() acts on
the ASCII range (the only range the code's filenames use). -/
def toLowerChar (c : Char) : Char :=
  if 'A' ≤ c ∧ c ≤ 'Z' then Char.ofNat (c.toNat + 32) else c

/-- Python str.lower() (ASCII range). -/
def toLowerChars (l : List Char) : List Char := l.map toLowerChar

/-- Boolean prefix test on character lists. -/
def leadsWith : List Char → List Char → Bool
  | [], _ => true
  | _ :: _, [] => false
  | p :: ps, x :: xs => p == x && leadsWith ps xs

/-- Python substring membership: pat in hay. -/
def containsSub (pat : List Char) : List Char → Bool
  | [] => leadsWith pat []
  | x :: xs => leadsWith pat (x :: xs) || containsSub pat xs

/-- Python str.split(sep) for a one-character separator (note that
splitting the empty string yields one empty field, as in Python). -/
def splitCharAux (c : Char) : List Char → List Char → List (List Char)
  | [], cur => [cur.reverse]
  | x :: xs, cur =>
    if x == c then cur.reverse :: splitCharAux c xs []
    else splitCharAux c xs (x :: cur)

def splitCharList (c : Char) (l : List Char) : List (List Char) :=
  splitCharAux c l []

/-- Python str.split(sep, 1) restricted to inputs that contain the
separator: the text before the first occurrence and the text after it.
(The code only calls it under an "sep in part" guard.) -/
def splitFirst (c : Char) : List Char → List Char × List Char
  | [] => ([], [])
  | x :: xs =>
    if x == c then ([], xs)
    else
      let p := splitFirst c xs
      (x :: p.1, p.2)

def digitChar (d : Nat) : Char := Char.ofNat (48 + d)

def digitVal (c : Char) : Nat := c.toNat - 48

/-- Little-endian digit list of n (fuel-structural so that it reduces
in the kernel; fuel n is always enough since a number has at most n
digits). -/
def natDigitsRev : Nat → Nat → List Nat
  | 0, _ => []
  | _ + 1, 0 => []
  | fuel + 1, n + 1 => ((n + 1) % 10) :: natDigitsRev fuel ((n + 1) / 10)

/-- Python str(n) for n : Nat, as a character list. -/
def natToDecChars (n : Nat) : List Char :=
  if n = 0 then ['0'] else ((natDigitsRev n n).reverse.map digitChar)

/-- Python str(n) for n : Nat. -/
def natToDec (n : Nat) : String := ⟨natToDecChars n⟩

/-- Numeric value of a big-endian digit-character run. -/
def valOfChars (l : List Char) : Nat :=
  l.foldl (fun a c => a * 10 + digitVal c) 0

def allDigits (l : List Char) : Bool := l.all Char.isDigit

/-- Python int(s) on text, for decimal literals: strip whitespace,
allow one sign, require a nonempty all-digit run. -/
def pyIntChars (l : List Char) : Option Int :=
  match stripChars l with
  | [] => none
  | c :: rest =>
    if c == '+' then
      if rest ≠ [] ∧ allDigits rest then some (Int.ofNat (valOfChars rest)) else none
    else if c == '-' then
      if rest ≠ [] ∧ allDigits rest then some (-(Int.ofNat (valOfChars rest))) else none
    else if allDigits (c :: rest) then some (Int.ofNat (valOfChars (c :: rest)))
    else none

def pyInt (s : String) : Option Int := pyIntChars s.data

/-! ### Frame codec (the 16-byte size field)

client.py line 144 sends str(file_size).encode().ljust(16) and
server.py line 704 sends str(output_size).encode().ljust(16) (the
error paths at lines 726 and 736 send str(0).encode().ljust(16)):
the decimal digits first, then spaces up to 16 bytes.  Both receivers
decode with int(bytes.decode().strip()). -/

/-- bytes.ljust(16): pad on the right with spaces up to 16 bytes
(longer inputs are returned unchanged). -/
def padRight16 (l : List Char) : List Char :=
  l ++ List.replicate (16 - l.length) ' '

/-- The size field the code actually sends (client and server use the
same expression). -/
def encodeSize (n : Nat) : String := ⟨padRight16 (natToDecChars n)⟩

/-- The size-field decoder both ends use: int(field.decode().strip()). -/
def decodeSize (s : String) : Option Int := pyIntChars s.data

/-- Modelled from the spec claim, for refinement comparison only: the
decimal string of n padded to 16 bytes with the padding on the left. -/
def encodeSizeLeftPadded (n : Nat) : String :=
  ⟨List.replicate (16 - (natToDecChars n).length) ' ' ++ natToDecChars n⟩

/-! ### Round-trip facts about the decimal rendering -/

/-- Value of a little-endian digit list. -/
def ofRevDigits : List Nat → Nat
  | [] => 0
  | d :: ds => d + 10 * ofRevDigits ds

lemma ofRevDigits_natDigitsRev : ∀ fuel n, n ≤ fuel →
    ofRevDigits (natDigitsRev fuel n) = n := by
  intro fuel
  induction fuel with
  | zero => intro n hn; interval_cases n; rfl
  | succ f ih =>
    intro n hn
    match n with
    | 0 => rfl
    | m + 1 =>
      have hdiv : (m + 1) / 10 ≤ f := by
        have h1 : (m + 1) / 10 < m + 1 := Nat.div_lt_self (Nat.succ_pos m) (by omega)
        omega
      simp only [natDigitsRev, ofRevDigits, ih _ hdiv]
      exact Nat.mod_add_div (m + 1) 10

lemma natDigitsRev_lt : ∀ fuel n d, d ∈ natDigitsRev fuel n → d < 10 := by
  intro fuel
  induction fuel with
  | zero => intro n d hd; simp [natDigitsRev] at hd
  | succ f ih =>
    intro n d hd
    match n with
    | 0 => simp [natDigitsRev] at hd
    | m + 1 =>
      simp only [natDigitsRev, List.mem_cons] at hd
      rcases hd with rfl | hd
      · exact Nat.mod_lt _ (by omega)
      · exact ih _ _ hd

lemma ofRevDigits_append_single (l : List Nat) (d : Nat) :
    ofRevDigits (l ++ [d]) = ofRevDigits l + d * 10 ^ l.length := by
  induction l with
  | nil => simp [ofRevDigits]
  | cons x xs ih => simp [ofRevDigits, ih, List.length_cons, pow_succ]; ring

lemma foldl_digits (l : List Nat) : ∀ a : Nat,
    l.foldl (fun a d => a * 10 + d) a = a * 10 ^ l.length + ofRevDigits l.reverse := by
  induction l with
  | nil => intro a; simp [ofRevDigits]
  | cons x xs ih =>
    intro a
    simp only [List.foldl_cons, ih, List.reverse_cons, ofRevDigits_append_single,
      List.length_reverse, List.length_cons, pow_succ]
    ring

lemma digitVal_digitChar {d : Nat} (hd : d < 10) : digitVal (digitChar d) = d := by
  interval_cases d <;> decide

lemma digitChar_isDigit {d : Nat} (hd : d < 10) : (digitChar d).isDigit = true := by
  interval_cases d <;> decide

lemma valOfChars_map_digitChar : ∀ (l : List Nat), (∀ d ∈ l, d < 10) → ∀ a : Nat,
    (l.map digitChar).foldl (fun a c => a * 10 + digitVal c) a =
      l.foldl (fun a d => a * 10 + d) a := by
  intro l
  induction l with
  | nil => intro _ a; rfl
  | cons x xs ih =>
    intro h a
    simp only [List.map_cons, List.foldl_cons,
      digitVal_digitChar (h x (List.mem_cons_self x xs))]
    exact ih (fun d hd => h d (List.mem_cons_of_mem x hd)) _

lemma valOfChars_natToDecChars (n : Nat) : valOfChars (natToDecChars n) = n := by
  by_cases h0 : n = 0
  · subst h0; decide
  · unfold natToDecChars valOfChars
    rw [if_neg h0]
    rw [valOfChars_map_digitChar _
      (fun d hd => natDigitsRev_lt n n d (List.mem_reverse.mp hd))]
    rw [foldl_digits, List.reverse_reverse, ofRevDigits_natDigitsRev n n le_rfl]
    simp

lemma allDigits_natToDecChars (n : Nat) : allDigits (natToDecChars n) = true := by
  by_cases h0 : n = 0
  · subst h0; decide
  · unfold natToDecChars allDigits
    rw [if_neg h0, List.all_eq_true]
    intro c hc
    rcases List.mem_map.mp hc with ⟨d, hd, rfl⟩
    exact digitChar_isDigit (natDigitsRev_lt n n d (List.mem_reverse.mp hd))

lemma natToDecChars_ne_nil (n : Nat) : natToDecChars n ≠ [] := by
  by_cases h0 : n = 0
  · subst h0; decide
  · unfold natToDecChars
    rw [if_neg h0]
    match n, h0 with
    | m + 1, _ =>
      simp [natDigitsRev]

lemma natDigitsRev_length_le : ∀ fuel n k, n ≤ fuel → n < 10 ^ k →
    (natDigitsRev fuel n).length ≤ k := by
  intro fuel
  induction fuel with
  | zero => intro n k hn _; interval_cases n; simp [natDigitsRev]
  | succ f ih =>
    intro n k hn hk
    match n with
    | 0 => simp [natDigitsRev]
    | m + 1 =>
      match k with
      | 0 => simp at hk
      | j + 1 =>
        have hdivf : (m + 1) / 10 ≤ f := by
          have h1 : (m + 1) / 10 < m + 1 := Nat.div_lt_self (Nat.succ_pos m) (by omega)
          omega
        have hdivk : (m + 1) / 10 < 10 ^ j := by
          rw [Nat.div_lt_iff_lt_mul (by omega)]
          calc m + 1 < 10 ^ (j + 1) := hk
            _ = 10 ^ j * 10 := pow_succ 10 j
        simpa [natDigitsRev] using ih _ j hdivf hdivk

lemma natToDecChars_length_le {n k : Nat} (hk : 1 ≤ k) (hn : n < 10 ^ k) :
    (natToDecChars n).length ≤ k := by
  by_cases h0 : n = 0
  · subst h0; simpa [natToDecChars] using hk
  · unfold natToDecChars
    rw [if_neg h0]
    simpa using natDigitsRev_length_le n n k le_rfl hn

/-! ### Stripping the padded size field -/

lemma dropWhile_append_of_all {p : Char → Bool} : ∀ (l m : List Char),
    (∀ x ∈ l, p x = true) → (l ++ m).dropWhile p = m.dropWhile p := by
  intro l
  induction l with
  | nil => intro m _; rfl
  | cons x xs ih =>
    intro m h
    simp only [List.cons_append, List.dropWhile_cons, h x (List.mem_cons_self x xs),
      if_true]
    exact ih m (fun y hy => h y (List.mem_cons_of_mem x hy))

lemma isSpaceChar_false_of_isDigit {c : Char} (h : c.isDigit = true) :
    isSpaceChar c = false := by
  by_contra hs
  rw [Bool.not_eq_false] at hs
  unfold isSpaceChar at hs
  simp only [Bool.or_eq_true, beq_iff_eq] at hs
  rcases hs with ((((h1 | h1) | h1) | h1) | h1) | h1 <;> subst h1 <;>
    exact absurd h (by decide)

lemma stripChars_digits_pad (l : List Char) (hne : l ≠ []) (hd : allDigits l = true)
    (k : Nat) : stripChars (l ++ List.replicate k ' ') = l := by
  have hdig : ∀ c ∈ l, c.isDigit = true := fun c hc => List.all_eq_true.mp hd c hc
  have hnospace : ∀ c ∈ l, isSpaceChar c = false :=
    fun c hc => isSpaceChar_false_of_isDigit (hdig c hc)
  unfold stripChars dropTrailing
  have h1 : (l ++ List.replicate k ' ').dropWhile isSpaceChar
      = l ++ List.replicate k ' ' := by
    match l, hne with
    | c :: rest, _ =>
      rw [List.cons_append, List.dropWhile_cons,
        hnospace c (List.mem_cons_self c rest)]
      simp
  rw [h1, List.reverse_append]
  have h2 : ((List.replicate k ' ').reverse ++ l.reverse).dropWhile isSpaceChar
      = l.reverse.dropWhile isSpaceChar := by
    apply dropWhile_append_of_all
    intro x hx
    rw [List.eq_of_mem_replicate (List.mem_reverse.mp hx)]
    rfl
  rw [h2]
  have h3 : l.reverse.dropWhile isSpaceChar = l.reverse := by
    cases hrl : l.reverse with
    | nil => rfl
    | cons y ys =>
      rw [List.dropWhile_cons]
      have hy : isSpaceChar y = false := by
        apply hnospace
        apply List.mem_reverse.mp
        rw [hrl]
        exact List.mem_cons_self y ys
      rw [hy]
      simp
  rw [h3, List.reverse_reverse]

lemma pyIntChars_digits_pad (l : List Char) (hne : l ≠ []) (hd : allDigits l = true)
    (k : Nat) :
    pyIntChars (l ++ List.replicate k ' ') = some (Int.ofNat (valOfChars l)) := by
  unfold pyIntChars
  rw [stripChars_digits_pad l hne hd k]
  match l, hne, hd with
  | c :: rest, _, hd =>
    have hcd : c.isDigit = true := by
      have := List.all_eq_true.mp hd c (List.mem_cons_self c rest)
      exact this
    have hplus : (c == '+') = false := by
      rw [beq_eq_false_iff_ne]; rintro rfl; exact absurd hcd (by decide)
    have hminus : (c == '-') = false := by
      rw [beq_eq_false_iff_ne]; rintro rfl; exact absurd hcd (by decide)
    simp only [hplus, hminus, Bool.false_eq_true, if_false, hd, if_true]

/-! ### Claim C1

The claim says the 16-byte size field is the decimal ASCII string of
the payload size padded to 16 bytes with the padding on the LEFT.
The code (client.py line 144, server.py lines 704, 726, 736) pads with
str(n).encode().ljust(16): the digits come first and the spaces are
appended on the RIGHT, on both ends alike, and the receivers strip the
field before parsing, so the round trip still holds. -/

/-- C1 counterexample: for payload size 0 the field actually sent is
the digit followed by fifteen spaces, not fifteen spaces followed by
the digit as the left-padding claim requires. -/
theorem c1_size_field_not_left_padded :
    encodeSize 0 ≠ encodeSizeLeftPadded 0 ∧ encodeSize 0 = "0               " := by
  decide

/-- C1 amended: for every payload size below 10^16 the size field sent
on the wire (the same expression on client and server) is the decimal
ASCII string of n padded to exactly 16 bytes with the padding spaces on
the RIGHT, and the receiving side's decoder recovers n from it. -/
theorem c1_size_field_right_padded (n : Nat) (h : n < 10 ^ 16) :
    (encodeSize n).length = 16 ∧
    encodeSize n = ⟨natToDecChars n ++ List.replicate (16 - (natToDecChars n).length) ' '⟩ ∧
    decodeSize (encodeSize n) = some (Int.ofNat n) := by
  have hlen : (natToDecChars n).length ≤ 16 := natToDecChars_length_le (by omega) h
  refine ⟨?_, rfl, ?_⟩
  · show (padRight16 (natToDecChars n)).length = 16
    unfold padRight16
    rw [List.length_append, List.length_replicate]
    omega
  · show pyIntChars (padRight16 (natToDecChars n)) = some (Int.ofNat n)
    unfold padRight16
    rw [pyIntChars_digits_pad _ (natToDecChars_ne_nil n) (allDigits_natToDecChars n) _,
      valOfChars_natToDecChars]

/-- C1 amended, witnessed at n = 12345. -/
theorem c1_size_field_right_padded_witness :
    12345 < 10 ^ 16 ∧
    ((encodeSize 12345).length = 16 ∧
      encodeSize 12345 =
        ⟨natToDecChars 12345 ++ List.replicate (16 - (natToDecChars 12345).length) ' '⟩ ∧
      decodeSize (encodeSize 12345) = some (Int.ofNat 12345)) :=
  ⟨by norm_num, c1_size_field_right_padded 12345 (by norm_num)⟩

/-! ### Claim C2: the client's handling of a zero-size result envelope

client.py lines 202-211: after receiving the suggested output filename
and the 16-byte size, the client takes one of three branches:
  - output_size == 0 and "error_" in the LOWERCASED filename: read one
    error-message block (a single recv(4096)) and raise — failure;
  - output_size == 0 otherwise: report an empty successful result and
    return True without reading any further bytes;
  - output_size > 0: receive exactly output_size bytes of payload. -/

inductive ResultOutcome
  | serverError
  | emptyOk
  | recvPayload
deriving DecidableEq

/-- The branch client.py lines 202-211 selects, given the declared
output size and the suggested output filename. -/
def classifyResult (size : Int) (name : String) : ResultOutcome :=
  if size = 0 ∧ containsSub "error_".data (toLowerChars name.data) = true then
    ResultOutcome.serverError
  else if size = 0 then ResultOutcome.emptyOk
  else ResultOutcome.recvPayload

/-- C2 counterexample: the suggested filename ERROR_x.bin does not
contain the substring error_ (so by the claim a zero-size envelope
with it should be a valid empty success), yet the client treats the
session as failed, because the code lowercases the filename before the
substring test. -/
theorem c2_error_substring_check_is_case_insensitive :
    containsSub "error_".data "ERROR_x.bin".data = false ∧
    classifyResult 0 "ERROR_x.bin" = ResultOutcome.serverError := by
  decide

/-- C2 amended: for every zero-size result envelope, the client treats
the session as failed and reads exactly one error-message block iff
the LOWERCASED suggested filename contains the substring error_;
otherwise it treats it as a valid empty success and reads no further
bytes. -/
theorem c2_zero_size_result_dispatch (size : Int) (name : String) (h : size = 0) :
    (containsSub "error_".data (toLowerChars name.data) = true →
      classifyResult size name = ResultOutcome.serverError) ∧
    (containsSub "error_".data (toLowerChars name.data) = false →
      classifyResult size name = ResultOutcome.emptyOk) := by
  subst h
  constructor
  · intro hc
    unfold classifyResult
    rw [if_pos ⟨rfl, hc⟩]
  · intro hc
    unfold classifyResult
    rw [if_neg, if_pos rfl]
    rintro ⟨_, hcc⟩
    rw [hc] at hcc
    exact Bool.false_ne_true hcc

/-- C2 amended, witnessed on the filename of an empty split result. -/
theorem c2_zero_size_result_dispatch_witness :
    classifyResult 0 "doc_split_files.zip" = ResultOutcome.emptyOk :=
  (c2_zero_size_result_dispatch 0 "doc_split_files.zip" rfl).2 (by decide)

/-! ### Claim C3: ACK gating on the client (Initiator) side

client.py lines 110-183: after each data-bearing send the client does
ack = sock.recv(1024) and raises ConnectionAbortedError unless the
bytes equal the expected literal.  A closed connection makes recv
return the empty byte string, which also differs from every literal.
The run of ACK-gated steps is modelled as a loop over the expected
literals; the i-th socket reply is an entry of a reply script (absent
entries model the closed connection's empty reads).  The result is
.ok () when every step matched, and .error i — the raised
ConnectionAbortedError — at the first step i whose reply differs, at
which point no later step runs. -/

/-- The ACK literals the client expects, in protocol order, for a
given action (lines 111, 139, 146, 162, 168, 174, 177, 183). -/
def clientExpectedAcks (action : String) : List String :=
  ["ACK_ACTION", "ACK_FILENAME", "ACK_SIZE"] ++
  (if action == "encrypt" || action == "decrypt" then ["ACK_PASS"]
   else if action == "split" then ["ACK_RANGES"]
   else if action == "rotate" then ["ACK_PAGES", "ACK_ANGLE"]
   else if action == "add_numbers" then ["ACK_POSITION"]
   else [])

/-- The bytes recv returns at ACK step i: the i-th reply of the
script, or empty once the peer has closed the connection. -/
def replyAt (replies : List String) (i : Nat) : String :=
  (replies.get? i).getD ""

/-- The client's ACK-gated progress loop. -/
def runAcks (replies : List String) : List String → Nat → Except Nat Unit
  | [], _ => Except.ok ()
  | e :: es, i =>
    if replyAt replies i == e then runAcks replies es (i + 1) else Except.error i

lemma runAcks_error_at (replies : List String) : ∀ (es : List String) (base i : Nat)
    (e : String),
    (∀ j, j < i → es.get? j = some (replyAt replies (base + j))) →
    es.get? i = some e → replyAt replies (base + i) ≠ e →
    runAcks replies es base = Except.error (base + i) := by
  intro es
  induction es with
  | nil => intro base i e _ hi _; simp at hi
  | cons x tl ih =>
    intro base i e hearlier hi hne
    match i with
    | 0 =>
      simp only [List.get?_cons_zero, Option.some_inj] at hi
      subst hi
      unfold runAcks
      rw [Nat.add_zero] at hne ⊢
      rw [beq_eq_false_iff_ne.mpr hne]
      rfl
    | k + 1 =>
      have hx : x = replyAt replies base := by
        have := hearlier 0 (Nat.succ_pos k)
        simp only [List.get?_cons_zero, Option.some_inj, Nat.add_zero] at this
        exact this
      unfold runAcks
      rw [beq_iff_eq.mpr hx.symm]
      simp only [if_true]
      have hrec := ih (base + 1) k e
        (fun j hj => by
          have := hearlier (j + 1) (by omega)
          simpa [Nat.add_assoc, Nat.add_comm 1 j] using this)
        (by simpa using hi)
        (by
          have : base + 1 + k = base + (k + 1) := by omega
          rw [this]
          exact hne)
      rw [hrec]
      congr 1
      omega

/-- C3 confirmed: at every ACK-gated step on the client side, if the
reply bytes differ from the expected ACK literal (including the empty
read a closed connection produces), the client aborts at that step
with ConnectionAbortedError (modelled as .error at that step's index)
and no later protocol step runs. -/
theorem c3_ack_mismatch_aborts (action : String) (replies : List String) (i : Nat)
    (e : String)
    (hearlier : ∀ j, j < i → (clientExpectedAcks action).get? j
      = some (replyAt replies j))
    (hi : (clientExpectedAcks action).get? i = some e)
    (hne : replyAt replies i ≠ e) :
    runAcks replies (clientExpectedAcks action) 0 = Except.error i := by
  have h := runAcks_error_at replies (clientExpectedAcks action) 0 i e
    (fun j hj => by simpa using hearlier j hj)
    hi (by simpa using hne)
  simpa using h

/-- C3 witnessed: a rotate session whose fourth reply is not the
expected ACK_PAGES literal aborts at step index 3. -/
theorem c3_ack_mismatch_aborts_witness :
    runAcks ["ACK_ACTION", "ACK_FILENAME", "ACK_SIZE", "ACK_WRONG"]
      (clientExpectedAcks "rotate") 0 = Except.error 3 :=
  c3_ack_mismatch_aborts "rotate"
    ["ACK_ACTION", "ACK_FILENAME", "ACK_SIZE", "ACK_WRONG"] 3 "ACK_PAGES"
    (by intro j hj; interval_cases j <;> rfl)
    (by rfl)
    (by decide)

/-! ### Claim C9: the client's result-receipt loop and save step

client.py lines 213-240: for a positive declared size the client
accumulates the payload in memory, each recv requesting
min(65536, size - received) bytes; an empty read raises
ConnectionAbortedError.  Only after the accumulated bytes reach the
declared size does the client open the save dialog, and the file is
written only when the caller confirms a path.  The byte stream is
modelled as a script of the data successive recv calls can return;
the model truncates each entry to the requested count, as the socket
does, and an exhausted script or an empty entry is the closed
connection. -/

def recvResultLoop (size : Nat) : List (List Nat) → List Nat → Except Unit (List Nat)
  | [], acc => if acc.length < size then Except.error () else Except.ok acc
  | c :: cs, acc =>
    if acc.length < size then
      if c.take (min 65536 (size - acc.length)) = [] then Except.error ()
      else recvResultLoop size cs (acc ++ c.take (min 65536 (size - acc.length)))
    else Except.ok acc

/-- The client's whole result phase (lines 202-240): dispatch on the
zero-size branches first (neither writes a file), then run the receive
loop; an abort writes no file; a complete payload is written only when
the caller confirms a save path.  The value is the file content
written to disk, or none when no file is written. -/
def clientWritesFile (size : Nat) (name : String) (script : List (List Nat))
    (saveConfirmed : Bool) : Option (List Nat) :=
  match classifyResult (Int.ofNat size) name with
  | ResultOutcome.serverError => none
  | ResultOutcome.emptyOk => none
  | ResultOutcome.recvPayload =>
    match recvResultLoop size script [] with
    | Except.error _ => none
    | Except.ok d => if saveConfirmed then some d else none

lemma recvResultLoop_ok_length (size : Nat) : ∀ (script : List (List Nat))
    (acc : List Nat), acc.length ≤ size → ∀ d,
    recvResultLoop size script acc = Except.ok d → d.length = size := by
  intro script
  induction script with
  | nil =>
    intro acc hacc d hd
    unfold recvResultLoop at hd
    by_cases h : acc.length < size
    · rw [if_pos h] at hd; cases hd
    · rw [if_neg h] at hd
      simp only [Except.ok.injEq] at hd
      subst hd
      omega
  | cons c cs ih =>
    intro acc hacc d hd
    unfold recvResultLoop at hd
    by_cases h : acc.length < size
    · rw [if_pos h] at hd
      by_cases hc : c.take (min 65536 (size - acc.length)) = []
      · rw [if_pos hc] at hd; cases hd
      · rw [if_neg hc] at hd
        apply ih _ _ _ hd
        rw [List.length_append]
        have htake : (c.take (min 65536 (size - acc.length))).length
            = min (min 65536 (size - acc.length)) c.length := List.length_take _ _
        omega
    · rw [if_neg h] at hd
      simp only [Except.ok.injEq] at hd
      subst hd
      omega

/-- C9 confirmed: the client writes a result file only when it has
received exactly the declared output size and the caller confirmed a
save path (the written content then has exactly the declared length),
and an abort of the receive loop before full receipt writes no file at
all. -/
theorem c9_no_partial_result_file (size : Nat) (name : String)
    (script : List (List Nat)) (saveConfirmed : Bool) :
    (∀ d, clientWritesFile size name script saveConfirmed = some d →
      d.length = size ∧ saveConfirmed = true) ∧
    (recvResultLoop size script [] = Except.error () →
      clientWritesFile size name script saveConfirmed = none) := by
  constructor
  · intro d hd
    unfold clientWritesFile at hd
    cases hcl : classifyResult (Int.ofNat size) name <;> rw [hcl] at hd
    · cases hd
    · cases hd
    · cases hrl : recvResultLoop size script [] <;> rw [hrl] at hd
      · cases hd
      · cases hs : saveConfirmed <;> rw [hs] at hd
        · cases hd
        · simp only [if_true, Option.some_inj] at hd
          subst hd
          exact ⟨recvResultLoop_ok_length size script [] (by simp) _ hrl, rfl⟩
  · intro herr
    unfold clientWritesFile
    cases hcl : classifyResult (Int.ofNat size) name
    · rfl
    · rfl
    · rw [herr]

/-- C9 witnessed on a 3-byte result delivered in two chunks. -/
theorem c9_no_partial_result_file_witness :
    [10, 20, 30].length = 3 ∧ true = true :=
  (c9_no_partial_result_file 3 "out.pdf" [[10, 20], [30, 40]] true).1
    [10, 20, 30] (by decide)

/-! ### Claim C6: server-side validation of received option fields

server.py lines 621-652: per action the server does a bare recv for
each required field, ACKs it, and raises ConnectionAbortedError when
the received bytes are empty (an empty recv means the peer closed the
connection — TCP cannot deliver an empty message).  The code has no
ValidationError; the ValueError raised for an unknown action at the
dispatch (line 687) is the code's validation-failure shape, modelled
as SrvErr.validation.  The engine is invoked only after this phase
(lines 654-687); an .error result means no engine invocation. -/

inductive SrvErr
  | connAborted
  | validation
deriving DecidableEq

/-- recv for option field i: the i-th received field, or the empty
string once the client has closed the connection. -/
def recvField (fields : List String) (i : Nat) : String :=
  (fields.get? i).getD ""

/-- The option-receiving phase, server.py lines 622-652. -/
def serverOptions (action : String) (fields : List String) :
    Except SrvErr (List (String × String)) :=
  if action == "encrypt" || action == "decrypt" then
    if recvField fields 0 = "" then Except.error SrvErr.connAborted
    else Except.ok [("password", recvField fields 0)]
  else if action == "split" then
    if recvField fields 0 = "" then Except.error SrvErr.connAborted
    else Except.ok [("ranges", recvField fields 0)]
  else if action == "rotate" then
    if recvField fields 0 = "" then Except.error SrvErr.connAborted
    else if recvField fields 1 = "" then Except.error SrvErr.connAborted
    else Except.ok [("pages", recvField fields 0), ("angle", recvField fields 1)]
  else if action == "add_numbers" then
    if recvField fields 0 = "" then Except.error SrvErr.connAborted
    else Except.ok [("position", recvField fields 0)]
  else Except.ok []

/-- The action tags the dispatch chain at lines 656-687 accepts. -/
def validActions : List String :=
  ["convert", "encrypt", "decrypt", "pdf_to_jpg", "pdf_to_word", "pdf_to_pptx",
   "compress", "split", "merge", "rotate", "add_numbers"]

structure ProcessCall where
  action : String
  options : List (String × String)
deriving DecidableEq

/-- The server's path from option phase to engine invocation: an .ok
value is the call handed to the processing code, an .error means the
engine is never invoked. -/
def serverHandle (action : String) (fields : List String) : Except SrvErr ProcessCall :=
  match serverOptions action fields with
  | Except.error e => Except.error e
  | Except.ok opts =>
    if validActions.contains action then Except.ok ⟨action, opts⟩
    else Except.error SrvErr.validation

/-- How many option fields the action requires (the spec's table in
section 4.3, which matches the code's recv sequence). -/
def requiredFieldCount (action : String) : Nat :=
  if action == "encrypt" || action == "decrypt" then 1
  else if action == "split" then 1
  else if action == "rotate" then 2
  else if action == "add_numbers" then 1
  else 0

/-- C6 counterexample: an empty password field on an encrypt request
makes the server raise ConnectionAbortedError, which is not the
ValidationError the claim names. -/
theorem c6_empty_field_not_validation_error :
    serverHandle "encrypt" [""] = Except.error SrvErr.connAborted ∧
    SrvErr.connAborted ≠ SrvErr.validation :=
  ⟨rfl, by decide⟩

/-- C6 amended: for every action with required option fields, the
server checks each received field is non-empty before any engine
invocation, but an empty field raises ConnectionAbortedError (the
empty recv is treated as a client disconnect), not a ValidationError. -/
theorem c6_empty_required_field_aborts (action : String) (fields : List String)
    (i : Nat) (hi : i < requiredFieldCount action)
    (hempty : recvField fields i = "") :
    serverHandle action fields = Except.error SrvErr.connAborted := by
  unfold requiredFieldCount at hi
  unfold serverHandle serverOptions
  by_cases h1 : (action == "encrypt" || action == "decrypt") = true
  · rw [if_pos h1] at hi
    rw [if_pos h1]
    have h0 : i = 0 := by omega
    subst h0
    rw [if_pos hempty]
  · rw [if_neg h1] at hi
    rw [if_neg h1]
    by_cases h2 : (action == "split") = true
    · rw [if_pos h2] at hi
      rw [if_pos h2]
      have h0 : i = 0 := by omega
      subst h0
      rw [if_pos hempty]
    · rw [if_neg h2] at hi
      rw [if_neg h2]
      by_cases h3 : (action == "rotate") = true
      · rw [if_pos h3] at hi
        rw [if_pos h3]
        match i, hi with
        | 0, _ =>
          rw [if_pos hempty]
        | 1, _ =>
          by_cases hf0 : recvField fields 0 = ""
          · rw [if_pos hf0]
          · rw [if_neg hf0, if_pos hempty]
      · rw [if_neg h3] at hi
        rw [if_neg h3]
        by_cases h4 : (action == "add_numbers") = true
        · rw [if_pos h4] at hi
          rw [if_pos h4]
          have h0 : i = 0 := by omega
          subst h0
          rw [if_pos hempty]
        · rw [if_neg h4] at hi
          omega

/-- C6 amended, witnessed: a rotate request whose angle field never
arrives (the connection closed after the pages field) aborts with
ConnectionAbortedError. -/
theorem c6_empty_required_field_aborts_witness :
    serverHandle "rotate" ["all"] = Except.error SrvErr.connAborted :=
  c6_empty_required_field_aborts "rotate" ["all"] 1 (by decide) rfl

/-! ### Claim C7: split_pdf (server.py lines 317-364)

The ranges string is split on commas; each part is stripped; an empty
part is passed over; a part containing a dash is parsed as a range
with defaults (missing start is 1, missing end is the page count) and
bounds-checked; a bare number is bounds-checked; a malformed or
out-of-range part raises ValueError inside the per-part try block,
which the code catches, logging a warning and skipping that part.
The action fails only when no part produced an output file. -/

/-- One nonempty stripped range segment: the 1-based pages it selects,
or none when the segment is skipped (lines 334-357). -/
def segPages (numPages : Nat) (part : List Char) : Option (List Nat) :=
  if part.contains '-' then
    match (if (splitFirst '-' part).1 = [] then some 1
            else pyIntChars (splitFirst '-' part).1),
          (if (splitFirst '-' part).2 = [] then some (Int.ofNat numPages)
            else pyIntChars (splitFirst '-' part).2) with
    | some s, some e =>
      if 1 ≤ s ∧ s ≤ e ∧ e ≤ Int.ofNat numPages then
        some (List.range' s.toNat (e.toNat - s.toNat + 1))
      else none
    | _, _ => none
  else
    match pyIntChars part with
    | some p =>
      if 1 ≤ p ∧ p ≤ Int.ofNat numPages then some [p.toNat] else none
    | none => none

/-- The per-part loop of split_pdf: the list of page groups written,
in order. -/
def splitLoop (numPages : Nat) : List (List Char) → List (List Nat)
  | [] => []
  | p :: ps =>
    if stripChars p = [] then splitLoop numPages ps
    else
      match segPages numPages (stripChars p) with
      | some pages => pages :: splitLoop numPages ps
      | none => splitLoop numPages ps

/-- split_pdf: page groups of the output files, or the error raised. -/
def split_pdf (numPages : Nat) (rangesStr : String) :
    Except String (List (List Nat)) :=
  if numPages = 0 then Except.error "Input PDF has no pages to split."
  else
    if splitLoop numPages (splitCharList ',' rangesStr.data) = [] then
      Except.error "No valid output files created. Check input ranges and PDF."
    else Except.ok (splitLoop numPages (splitCharList ',' rangesStr.data))

lemma splitLoop_skips_invalid (numPages : Nat) (p : List Char)
    (hbad : stripChars p = [] ∨ segPages numPages (stripChars p) = none) :
    ∀ l1 l2, splitLoop numPages (l1 ++ p :: l2) = splitLoop numPages (l1 ++ l2) := by
  intro l1
  induction l1 with
  | nil =>
    intro l2
    simp only [List.nil_append, splitLoop]
    by_cases hs : stripChars p = []
    · simp only [if_pos hs]
    · simp only [if_neg hs]
      rcases hbad with h | h
      · exact absurd h hs
      · rw [h]
  | cons q l1 ih =>
    intro l2
    simp only [List.cons_append, splitLoop]
    by_cases hq : stripChars q = []
    · simp only [if_pos hq]
      exact ih l2
    · simp only [if_neg hq]
      cases hsq : segPages numPages (stripChars q) with
      | none => exact ih l2
      | some pages => exact congrArg (fun x => pages :: x) (ih l2)

/-- C7 confirmed: the ranges 1-3,5,7- against a 10-page input yield
exactly the three groups {1,2,3}, {5}, {7,8,9,10}; an out-of-range or
malformed segment anywhere in the ranges string is skipped without
affecting the other segments or aborting; and the action returns a
result iff at least one valid segment remains. -/
theorem c7_split_ranges_behavior :
    split_pdf 10 "1-3,5,7-" = Except.ok [[1, 2, 3], [5], [7, 8, 9, 10]] ∧
    (∀ (numPages : Nat) (p : List Char) (l1 l2 : List (List Char)),
      (stripChars p = [] ∨ segPages numPages (stripChars p) = none) →
      splitLoop numPages (l1 ++ p :: l2) = splitLoop numPages (l1 ++ l2)) ∧
    (∀ (numPages : Nat) (rangesStr : String), 0 < numPages →
      ((∃ fs, split_pdf numPages rangesStr = Except.ok fs) ↔
        splitLoop numPages (splitCharList ',' rangesStr.data) ≠ [])) := by
  refine ⟨rfl, ?_, ?_⟩
  · intro numPages p l1 l2 hbad
    exact splitLoop_skips_invalid numPages p hbad l1 l2
  · intro numPages rangesStr hn
    have hn0 : numPages ≠ 0 := by omega
    constructor
    · rintro ⟨fs, hfs⟩
      unfold split_pdf at hfs
      rw [if_neg hn0] at hfs
      by_cases hz : splitLoop numPages (splitCharList ',' rangesStr.data) = []
      · rw [if_pos hz] at hfs
        cases hfs
      · exact hz
    · intro hne
      refine ⟨splitLoop numPages (splitCharList ',' rangesStr.data), ?_⟩
      unfold split_pdf
      rw [if_neg hn0, if_neg hne]

/-- C7 witnessed: the out-of-range segment 99 in the middle of a
ranges string is skipped, leaving the result of the remaining
segments. -/
theorem c7_split_ranges_behavior_witness :
    splitLoop 10 (["1-3".data] ++ " 99 ".data :: ["5".data])
      = splitLoop 10 (["1-3".data] ++ ["5".data]) :=
  c7_split_ranges_behavior.2.1 10 " 99 ".data ["1-3".data] ["5".data]
    (Or.inr rfl)

/-! ### Claim C8: rotate_pdf (server.py lines 414-463)

rotate_pdf first parses the angle with int() and raises ValueError
unless it is a multiple of 90 — before the PDF is opened, before the
pages specification is parsed, and before any output file is written.
Unlike split, a malformed page segment here re-raises ValueError. -/

/-- One nonempty stripped rotate page segment (lines 435-445):
0-based page indices, or none for a ValueError. -/
def rotSeg (numPages : Nat) (part : List Char) : Option (List Nat) :=
  if part.contains '-' then
    match (if (splitFirst '-' part).1 = [] then some 1
            else pyIntChars (splitFirst '-' part).1),
          (if (splitFirst '-' part).2 = [] then some (Int.ofNat numPages)
            else pyIntChars (splitFirst '-' part).2) with
    | some s, some e =>
      if 1 ≤ s ∧ s ≤ e ∧ e ≤ Int.ofNat numPages then
        some (List.range' (s.toNat - 1) (e.toNat - s.toNat + 1))
      else none
    | _, _ => none
  else
    match pyIntChars part with
    | some p =>
      if 1 ≤ p ∧ p ≤ Int.ofNat numPages then some [p.toNat - 1] else none
    | none => none

/-- The page-collection loop at lines 431-446 (any bad part aborts). -/
def collectRotParts (numPages : Nat) : List (List Char) → Option (List Nat)
  | [] => some []
  | p :: ps =>
    if stripChars p = [] then collectRotParts numPages ps
    else
      match rotSeg numPages (stripChars p) with
      | none => none
      | some idxs =>
        match collectRotParts numPages ps with
        | none => none
        | some rest => some (idxs ++ rest)

/-- The selected rotation indices (lines 427-446): the keyword all
selects every page, an empty specification selects none. -/
def rotateIndices (numPages : Nat) (t : List Char) : Option (List Nat) :=
  if t = "all".data then some (List.range numPages)
  else if t = [] then some []
  else collectRotParts numPages (splitCharList ',' t)

inductive RotErr
  | badAngleFormat
  | angleNotMultipleOf90
  | noPages
  | badPageSpec
deriving DecidableEq

/-- rotate_pdf's validation and page selection: an .ok value is the
per-page rotation flags (page i of the output is rotated by the angle
iff flag i is true) paired with the angle. -/
def rotate_pdf (numPages : Nat) (pagesStr angleStr : String) :
    Except RotErr (List Bool × Int) :=
  match pyInt angleStr with
  | none => Except.error RotErr.badAngleFormat
  | some angle =>
    if angle % 90 ≠ 0 then Except.error RotErr.angleNotMultipleOf90
    else if numPages = 0 then Except.error RotErr.noPages
    else
      match rotateIndices numPages (toLowerChars (stripChars pagesStr.data)) with
      | none => Except.error RotErr.badPageSpec
      | some idxs =>
        Except.ok ((List.range numPages).map (fun i => idxs.contains i), angle)

/-- C8 confirmed: a rotate request whose angle parses to an integer
that is not a multiple of 90 is rejected with the ValueError raised at
line 419 regardless of the input PDF and of the pages specification —
before the PDF is read and before any output file is written. -/
theorem c8_angle_not_multiple_of_90_rejected (numPages : Nat)
    (pagesStr angleStr : String) (a : Int) (hparse : pyInt angleStr = some a)
    (hmod : a % 90 ≠ 0) :
    rotate_pdf numPages pagesStr angleStr
      = Except.error RotErr.angleNotMultipleOf90 := by
  unfold rotate_pdf
  rw [hparse]
  exact if_pos hmod

/-- C8 witnessed at angle 45. -/
theorem c8_angle_not_multiple_of_90_rejected_witness :
    rotate_pdf 10 "all" "45" = Except.error RotErr.angleNotMultipleOf90 :=
  c8_angle_not_multiple_of_90_rejected 10 "all" "45" 45 rfl (by decide)

/-! ### Claims C10 and C4: merge_pdfs zip handling (server.py 367-411)

Line 379 skips an archive member when it is a directory entry, when
its name does not end in .pdf after lowercasing, or when its name
contains the substring ../ ; line 380 extracts an accepted member to
os.path.join(temp_extract_dir, os.path.basename(member.filename)). -/

/-- Python string less-than: lexicographic by code point. -/
def ltChars : List Char → List Char → Bool
  | [], [] => false
  | [], _ :: _ => true
  | _ :: _, [] => false
  | a :: as, b :: bs =>
    if a < b then true else if b < a then false else ltChars as bs

lemma ltChars_irrefl : ∀ a, ltChars a a = false := by
  intro a
  induction a with
  | nil => rfl
  | cons c cs ih =>
    unfold ltChars
    rw [if_neg (lt_irrefl c), if_neg (lt_irrefl c)]
    exact ih

/-- Python str.rfind for one character: last index, or -1. -/
def rfindChar (c : Char) (l : List Char) : Int :=
  match ((List.range l.length).filter (fun i => l.get? i == some c)).getLast? with
  | none => -1
  | some i => Int.ofNat i

/-- os.path.splitext on the received base filename (ntpath semantics:
slash and backslash both end a path component): split at the last dot
unless every character of the final component before that dot is
itself a dot. -/
def splitExtChars (l : List Char) : List Char × List Char :=
  let sepIdx : Int := max (rfindChar '/' l) (rfindChar '\\' l)
  let dotIdx : Int := rfindChar '.' l
  if dotIdx > sepIdx then
    if (List.range l.length).any (fun j =>
        decide (sepIdx + 1 ≤ Int.ofNat j) && decide (Int.ofNat j < dotIdx)
          && !(l.get? j == some '.')) then
      (l.take dotIdx.toNat, l.drop dotIdx.toNat)
    else (l, [])
  else (l, [])

/-- The sanitisation at line 561: keep alphanumerics, underscore and
hyphen, replace everything else with underscore, cap at 50 characters.
(Python str.isalnum is Unicode-aware; the model uses the ASCII test,
on which the two agree for ASCII filenames.) -/
def sanitizeChars (l : List Char) : List Char :=
  (l.map (fun c => if c.isAlphanum || c == '_' || c == '-' then c else '_')).take 50

/-- pid_suffix at line 562: an underscore and str(os.getpid()). -/
def pidSuffixChars (pid : Nat) : List Char := '_' :: natToDecChars pid

/-- os.path.join as used for the temp paths. -/
def joinPath (dir name : List Char) : List Char := dir ++ '/' :: name

/-- The received-payload path (lines 564-568): for merge the upload is
stored as {safe}_{pid}.zip, for every other action as
{safe}_{pid}{ext} — the path does not depend on the action apart
from that distinction. -/
def inputPathFor (action : String) (tmpDir : List Char) (baseFilename : String)
    (pid : Nat) : List Char :=
  if action == "merge" then
    joinPath tmpDir (sanitizeChars (splitExtChars baseFilename.data).1
      ++ pidSuffixChars pid ++ ".zip".data)
  else
    joinPath tmpDir (sanitizeChars (splitExtChars baseFilename.data).1
      ++ pidSuffixChars pid ++ (splitExtChars baseFilename.data).2)

/-- The output path per action (lines 570-596): pdf_to_jpg zips to
{safe}_images{pid}.zip, pdf_to_word writes {safe}{pid}.docx,
pdf_to_pptx writes {safe}{pid}.pptx, split zips to
{safe}_split_files{pid}.zip, merge writes merged_{stem}[:50]{pid}.pdf
built from the RAW unsanitized stem, and every other action writes
{safe}_{suffix}{pid}.pdf with suffix the action name (processed for
convert). -/
def outputPathFor (action : String) (tmpDir : List Char) (baseFilename : String)
    (pid : Nat) : List Char :=
  if action == "pdf_to_jpg" then
    joinPath tmpDir (sanitizeChars (splitExtChars baseFilename.data).1
      ++ "_images".data ++ pidSuffixChars pid ++ ".zip".data)
  else if action == "pdf_to_word" then
    joinPath tmpDir (sanitizeChars (splitExtChars baseFilename.data).1
      ++ pidSuffixChars pid ++ ".docx".data)
  else if action == "pdf_to_pptx" then
    joinPath tmpDir (sanitizeChars (splitExtChars baseFilename.data).1
      ++ pidSuffixChars pid ++ ".pptx".data)
  else if action == "split" then
    joinPath tmpDir (sanitizeChars (splitExtChars baseFilename.data).1
      ++ "_split_files".data ++ pidSuffixChars pid ++ ".zip".data)
  else if action == "merge" then
    joinPath tmpDir (("merged_".data ++ (splitExtChars baseFilename.data).1).take 50
      ++ pidSuffixChars pid ++ ".pdf".data)
  else
    joinPath tmpDir (sanitizeChars (splitExtChars baseFilename.data).1
      ++ '_' :: (if action == "convert" then "processed".data else action.data)
      ++ pidSuffixChars pid ++ ".pdf".data)

/-- The per-action scratch directory (temp_dir_for_action, lines
572-585): pdf_to_jpg uses {safe}_jpg_output{pid}, pdf_to_pptx uses
{safe}_pptx_temp_imgs{pid}, split uses {safe}_split_output{pid}; no
other action has one. -/
def scratchDirFor (action : String) (tmpDir : List Char) (baseFilename : String)
    (pid : Nat) : Option (List Char) :=
  if action == "pdf_to_jpg" then
    some (joinPath tmpDir (sanitizeChars (splitExtChars baseFilename.data).1
      ++ "_jpg_output".data ++ pidSuffixChars pid))
  else if action == "pdf_to_pptx" then
    some (joinPath tmpDir (sanitizeChars (splitExtChars baseFilename.data).1
      ++ "_pptx_temp_imgs".data ++ pidSuffixChars pid))
  else if action == "split" then
    some (joinPath tmpDir (sanitizeChars (splitExtChars baseFilename.data).1
      ++ "_split_output".data ++ pidSuffixChars pid))
  else none

lemma natToDecChars_injective {m n : Nat} (h : natToDecChars m = natToDecChars n) :
    m = n := by
  have hv := congrArg valOfChars h
  rwa [valOfChars_natToDecChars, valOfChars_natToDecChars] at hv

lemma append_mid_injective (p s x y : List Char) (h : p ++ x ++ s = p ++ y ++ s) :
    x = y := by
  rw [List.append_assoc, List.append_assoc] at h
  exact List.append_cancel_right (List.append_cancel_left h)

lemma pid_path_injective (p s : List Char) {pid1 pid2 : Nat}
    (h : p ++ pidSuffixChars pid1 ++ s = p ++ pidSuffixChars pid2 ++ s) :
    pid1 = pid2 := by
  have h1 := append_mid_injective p s _ _ h
  unfold pidSuffixChars at h1
  have h2 : natToDecChars pid1 = natToDecChars pid2 := by
    injection h1
  exact natToDecChars_injective h2

/-- C5 counterexample: all sessions of the one (sequential) server
process share os.getpid(), so two sessions that supply the same base
filename derive the SAME workspace input path — here a compress
session and a rotate session both store their upload at
tmp/report_4242.pdf — the namespacing does not give concurrent
same-name sessions distinct paths. -/
theorem c5_same_process_sessions_collide :
    inputPathFor "compress" "tmp".data "report.pdf" 4242
      = inputPathFor "rotate" "tmp".data "report.pdf" 4242 ∧
    inputPathFor "compress" "tmp".data "report.pdf" 4242
      = "tmp/report_4242.pdf".data := by
  constructor
  · rfl
  · decide

/-- C5 amended: the {sanitized-base}_{server-pid} namespacing keeps
workspace paths distinct across server PROCESSES: for one base
filename and action, two different process ids always give a different
input path, a different output path (in every output branch, the merge
branch with its raw stem included), and different scratch directories
whenever the action uses one.  Sessions inside one server process
share its pid and reuse identical paths for the same filename; that
server avoids aliasing only by serving connections sequentially. -/
theorem c5_distinct_pids_distinct_paths (action : String) (tmpDir : List Char)
    (baseFilename : String) (pid1 pid2 : Nat) (hne : pid1 ≠ pid2) :
    inputPathFor action tmpDir baseFilename pid1
      ≠ inputPathFor action tmpDir baseFilename pid2 ∧
    outputPathFor action tmpDir baseFilename pid1
      ≠ outputPathFor action tmpDir baseFilename pid2 ∧
    (∀ d, scratchDirFor action tmpDir baseFilename pid1 = some d →
      scratchDirFor action tmpDir baseFilename pid2 ≠ some d) := by
  have key : ∀ (pre suf : List Char),
      pre ++ pidSuffixChars pid1 ++ suf = pre ++ pidSuffixChars pid2 ++ suf →
      False :=
    fun pre suf h => hne (pid_path_injective pre suf h)
  refine ⟨?_, ?_, ?_⟩
  · intro heq
    unfold inputPathFor joinPath at heq
    by_cases hm : (action == "merge") = true
    · rw [if_pos hm, if_pos hm] at heq
      apply key (tmpDir ++ '/' :: sanitizeChars (splitExtChars baseFilename.data).1)
        ".zip".data
      simpa [List.append_assoc] using heq
    · rw [if_neg hm, if_neg hm] at heq
      apply key (tmpDir ++ '/' :: sanitizeChars (splitExtChars baseFilename.data).1)
        (splitExtChars baseFilename.data).2
      simpa [List.append_assoc] using heq
  · intro heq
    unfold outputPathFor joinPath at heq
    by_cases h1 : (action == "pdf_to_jpg") = true
    · rw [if_pos h1, if_pos h1] at heq
      apply key (tmpDir ++ '/' :: (sanitizeChars (splitExtChars baseFilename.data).1
        ++ "_images".data)) ".zip".data
      simpa [List.append_assoc] using heq
    · rw [if_neg h1, if_neg h1] at heq
      by_cases h2 : (action == "pdf_to_word") = true
      · rw [if_pos h2, if_pos h2] at heq
        apply key (tmpDir ++ '/' :: sanitizeChars (splitExtChars baseFilename.data).1)
          ".docx".data
        simpa [List.append_assoc] using heq
      · rw [if_neg h2, if_neg h2] at heq
        by_cases h3 : (action == "pdf_to_pptx") = true
        · rw [if_pos h3, if_pos h3] at heq
          apply key (tmpDir ++ '/' :: sanitizeChars (splitExtChars baseFilename.data).1)
            ".pptx".data
          simpa [List.append_assoc] using heq
        · rw [if_neg h3, if_neg h3] at heq
          by_cases h4 : (action == "split") = true
          · rw [if_pos h4, if_pos h4] at heq
            apply key (tmpDir ++ '/' :: (sanitizeChars (splitExtChars baseFilename.data).1
              ++ "_split_files".data)) ".zip".data
            simpa [List.append_assoc] using heq
          · rw [if_neg h4, if_neg h4] at heq
            by_cases h5 : (action == "merge") = true
            · rw [if_pos h5, if_pos h5] at heq
              apply key (tmpDir ++ '/' ::
                (("merged_".data ++ (splitExtChars baseFilename.data).1).take 50))
                ".pdf".data
              simpa [List.append_assoc] using heq
            · rw [if_neg h5, if_neg h5] at heq
              apply key (tmpDir ++ '/' ::
                (sanitizeChars (splitExtChars baseFilename.data).1
                  ++ '_' :: (if action == "convert" then "processed".data
                    else action.data)))
                ".pdf".data
              simpa [List.append_assoc] using heq
  · intro d hd1 hd2
    unfold scratchDirFor at hd1 hd2
    by_cases h1 : (action == "pdf_to_jpg") = true
    · rw [if_pos h1] at hd1 hd2
      have e := (Option.some.inj hd1).trans (Option.some.inj hd2).symm
      unfold joinPath at e
      apply key (tmpDir ++ '/' :: (sanitizeChars (splitExtChars baseFilename.data).1
        ++ "_jpg_output".data)) []
      simpa [List.append_assoc] using e
    · rw [if_neg h1] at hd1 hd2
      by_cases h2 : (action == "pdf_to_pptx") = true
      · rw [if_pos h2] at hd1 hd2
        have e := (Option.some.inj hd1).trans (Option.some.inj hd2).symm
        unfold joinPath at e
        apply key (tmpDir ++ '/' :: (sanitizeChars (splitExtChars baseFilename.data).1
          ++ "_pptx_temp_imgs".data)) []
        simpa [List.append_assoc] using e
      · rw [if_neg h2] at hd1 hd2
        by_cases h3 : (action == "split") = true
        · rw [if_pos h3] at hd1 hd2
          have e := (Option.some.inj hd1).trans (Option.some.inj hd2).symm
          unfold joinPath at e
          apply key (tmpDir ++ '/' :: (sanitizeChars (splitExtChars baseFilename.data).1
            ++ "_split_output".data)) []
          simpa [List.append_assoc] using e
        · rw [if_neg h3] at hd1
          cases hd1

/-- C5 amended, witnessed at two distinct process ids for the split
action (which exercises the scratch-directory branch too). -/
theorem c5_distinct_pids_distinct_paths_witness :
    (100 : Nat) ≠ 101 ∧
    (inputPathFor "split" "tmp".data "report.pdf" 100
      ≠ inputPathFor "split" "tmp".data "report.pdf" 101 ∧
    outputPathFor "split" "tmp".data "report.pdf" 100
      ≠ outputPathFor "split" "tmp".data "report.pdf" 101 ∧
    (∀ d, scratchDirFor "split" "tmp".data "report.pdf" 100 = some d →
      scratchDirFor "split" "tmp".data "report.pdf" 101 ≠ some d)) :=
  ⟨by decide,
    c5_distinct_pids_distinct_paths "split" "tmp".data "report.pdf" 100 101
      (by decide)⟩

end FileConv
